import Mathlib

/-!
Verification of the geometric core of `src/base/undistortion.cc`
(COLMAP undistortion / stereo rectification fork).

The C++ code works on `double`; we model scalars as exact rationals.  The
transcendental routines it calls (`std::atan`, `std::tan`, the square roots
hidden inside Eigen's `norm()` / `normalized()`) and the constant pi used by
`DegToRad` live outside this translation unit, so they are taken as an
abstract parameter (`Trig`).  Every theorem quantifies over that parameter
unless it is exercising a concrete scenario, in which case a concrete
instance consistent with the real functions at every evaluated point is
supplied.
-/

namespace Undist

/-- Abstract model of the transcendental scalar functions the source calls:
`std::atan`, `std::tan`, the square root used by Eigen norms, and pi
(`DegToRad`).  They are external to the translation unit under verification. -/
structure Trig where
  atan : ℚ → ℚ
  tan : ℚ → ℚ
  sqrt : ℚ → ℚ
  pi : ℚ

/-- 2D point / vector (`Eigen::Vector2d`). -/
abbrev Vec2 := ℚ × ℚ

def vadd (a b : Vec2) : Vec2 := (a.1 + b.1, a.2 + b.2)

def vsub (a b : Vec2) : Vec2 := (a.1 - b.1, a.2 - b.2)

def vsmul (s : ℚ) (a : Vec2) : Vec2 := (s * a.1, s * a.2)

/-- Squared Euclidean norm of a 2D vector. -/
def normSq (v : Vec2) : ℚ := v.1 * v.1 + v.2 * v.2

/-- Euclidean norm `v.norm()`: the square root is delegated to the abstract `Trig`. -/
def qnorm (t : Trig) (v : Vec2) : ℚ := t.sqrt (normSq v)

def simplePinholeModelId : ℕ := 0

def pinholeModelId : ℕ := 1

/-- Modelled from the spec: the Camera Model collaborator (`base/camera.h`
and `base/camera_models.h` are outside `src/`).  The spec (sections 2, 3
and 6) describes it as a kind (model id), width, height, intrinsics
(focal lengths, principal point), introspection of how many focal-length /
principal-point parameters the kind has, and an opaque
`imageToWorld` back-projection whose out-of-domain behaviour is arbitrary.
For single-focal-length kinds the one stored focal length is exposed on
both axes (`fx = fy`). -/
structure Camera where
  modelId : ℕ
  width : ℕ
  height : ℕ
  fx : ℚ
  fy : ℚ
  cx : ℚ
  cy : ℚ
  numFocalParams : ℕ
  numPrincipalPointParams : ℕ
  rawImageToWorld : Vec2 → Vec2

/-- Modelled from the spec: back-projection dispatches on the model kind.
For the pinhole family it is the linear inverse of the calibration; for any
other kind it is the opaque collaborator function. -/
def Camera.imageToWorld (c : Camera) (p : Vec2) : Vec2 :=
  if c.modelId = simplePinholeModelId ∨ c.modelId = pinholeModelId then
    ((p.1 - c.cx) / c.fx, (p.2 - c.cy) / c.fy)
  else c.rawImageToWorld p

/-- Modelled from the spec: forward projection of a pinhole-kind camera
(the only kind the synthesizer projects through in the scale step). -/
def Camera.worldToImagePinhole (c : Camera) (w : Vec2) : Vec2 :=
  (c.fx * w.1 + c.cx, c.fy * w.2 + c.cy)

/-- Modelled from the spec: `FocalLength()` accessor for single-focal kinds. -/
def Camera.focalLength (c : Camera) : ℚ := c.fx

/-- Modelled from the spec: mean of the focal-length parameters. -/
def Camera.meanFocalLength (c : Camera) : ℚ :=
  if c.numFocalParams = 1 then c.fx else (c.fx + c.fy) / 2

/-- Modelled from the spec: `Rescale(factor)` uniformly rescales the whole
camera (dimensions, focal length, principal point) by the factor; the new
integer dimensions are rounded to the nearest pixel and the intrinsics are
scaled by the per-axis ratios actually realised after rounding. -/
def Camera.rescale (c : Camera) (s : ℚ) : Camera :=
  let w2 : ℤ := round (s * (c.width : ℚ))
  let h2 : ℤ := round (s * (c.height : ℚ))
  let sx : ℚ := (w2 : ℚ) / (c.width : ℚ)
  let sy : ℚ := (h2 : ℚ) / (c.height : ℚ)
  { c with width := w2.toNat, height := h2.toNat,
           fx := sx * c.fx, fy := sy * c.fy, cx := sx * c.cx, cy := sy * c.cy }

/-- Modelled from the spec: an optional override camera kind plus parameter
string (already parsed into intrinsics); `paramsValid` is the result of
`VerifyParams()` on the parsed parameters. -/
structure CameraModelOverride where
  modelId : ℕ
  fx : ℚ
  fy : ℚ
  cx : ℚ
  cy : ℚ
  paramsValid : Bool
deriving DecidableEq

/-- Options struct `UndistortCameraOptions` (header defaults: `max_image_size = -1`). -/
structure UndistortCameraOptions where
  blankPixels : ℚ
  minScale : ℚ
  maxScale : ℚ
  maxImageSize : ℤ
  maxFov : ℚ
  maxHorizontalFov : ℚ
  maxVerticalFov : ℚ
  cameraModelOverride : Option CameraModelOverride
  estimateFocalLengthFromFov : Bool

/-- The eleven `CHECK_*` assertions at the entry of `UndistortCamera`
(lines 661-671).  Note `CHECK_NE(options.max_image_size, 0)`: the value 0
is fatal.  `max_fov` is strictly below 180 while the horizontal/vertical
bounds only need `<= 180`, exactly as in the source. -/
def optionsValid (o : UndistortCameraOptions) : Bool :=
  decide (0 ≤ o.blankPixels) && decide (o.blankPixels ≤ 1) &&
  decide (0 < o.minScale) && decide (o.minScale ≤ o.maxScale) &&
  decide (o.maxImageSize ≠ 0) &&
  decide (o.maxFov < 180) && decide (0 < o.maxFov) &&
  decide (o.maxVerticalFov ≤ 180) && decide (0 < o.maxVerticalFov) &&
  decide (o.maxHorizontalFov ≤ 180) && decide (0 < o.maxHorizontalFov)

/-- Conversion `DegToRad` (util/math.h): degrees times pi over 180. -/
def degToRad (t : Trig) (d : ℚ) : ℚ := d * t.pi / 180

/-! ### SelectPointOnRay (lines 120-147): the Ray Domain Probe -/

/-- Validity test evaluated by each round of the binary search
(lines 132-138): back-project the candidate point and compare the
vertical, horizontal and total angles against the bounds. -/
def rayValidAt (t : Trig) (cam : Camera) (origin dir : Vec2)
    (maxAngle maxHorizontalAngle maxVerticalAngle : ℚ) (m : ℚ) : Bool :=
  let w := cam.imageToWorld (vadd origin (vsmul m dir))
  decide (t.atan w.2 < maxVerticalAngle) &&
  decide (t.atan w.1 < maxHorizontalAngle) &&
  decide (t.atan (qnorm t w) < maxAngle)

/-- The fixed-iteration bisection of lines 129-145: each round evaluates the
validity predicate at the midpoint and keeps the half whose left end stays
valid.  Returns the final `(l, r)` bracket. -/
def selectLoop (valid : ℚ → Bool) : ℕ → ℚ → ℚ → ℚ × ℚ
  | 0, l, r => (l, r)
  | n + 1, l, r =>
    let m := (l + r) / 2
    if valid m then selectLoop valid n m r else selectLoop valid n l m

/-- Unit direction `diff.normalized()` for `diff = target - origin`. -/
def rayDir (t : Trig) (origin target : Vec2) : Vec2 :=
  let diff := vsub target origin
  vsmul (1 / qnorm t diff) diff

/-- The initial right end of the search: `min(max_length, diff.norm())`. -/
def rayCap (t : Trig) (origin target : Vec2) (maxLength : ℚ) : ℚ :=
  min maxLength (qnorm t (vsub target origin))

/-- Distance from `origin` of the point returned by `SelectPointOnRay`:
the left end of the bracket after 32 bisection rounds started at
`[0, min(max_length, |target - origin|)]`. -/
def selectDistance (t : Trig) (cam : Camera) (origin target : Vec2)
    (maxLength maxAngle maxHorizontalAngle maxVerticalAngle : ℚ) : ℚ :=
  (selectLoop
    (rayValidAt t cam origin (rayDir t origin target)
      maxAngle maxHorizontalAngle maxVerticalAngle)
    32 0 (rayCap t origin target maxLength)).1

/-- The probe `SelectPointOnRay` (lines 120-147): returns `origin + dir * l`. -/
def SelectPointOnRay (t : Trig) (cam : Camera) (origin target : Vec2)
    (maxLength maxAngle maxHorizontalAngle maxVerticalAngle : ℚ) : Vec2 :=
  vadd origin
    (vsmul
      (selectDistance t cam origin target
        maxLength maxAngle maxHorizontalAngle maxVerticalAngle)
      (rayDir t origin target))

/-! ### UndistortCamera (lines 659-914) -/

/-- The `corners` array of lines 697-700.  The third entry is written
`Eigen::Vector2d(camera.Height(), camera.Width())` in the source, i.e. the
coordinates are transposed: for a non-square image it is not an image
corner at all. -/
def undistCorners (cam : Camera) : Fin 4 → Vec2 :=
  ![(0, 0), ((cam.width : ℚ), 0), ((cam.height : ℚ), (cam.width : ℚ)),
    (0, (cam.height : ℚ))]

/-- Lines 705-714: find the largest distance from the principal point to an
entry of the `corners` array, together with the unit direction towards it.
In the source `corner_dir` is uninitialized until some entry is strictly
farther than 0; we start from `(0, 0)`. -/
def farthestCorner (t : Trig) (cam : Camera) (pp : Vec2) : ℚ × Vec2 :=
  (List.finRange 4).foldl
    (fun acc i =>
      let diff := vsub (undistCorners cam i) pp
      let nrm := qnorm t diff
      if acc.1 < nrm then (nrm, vsmul (1 / nrm) diff) else acc)
    (0, (0, 0))

/-- The pixel-by-pixel march of lines 716-724.  State: `(radius, half)`
where `radius` is the outer `max_valid_radius` (initially the image
diagonal) and `half` is the *inner* `max_valid_fov_half` (initially 0,
shadowing the outer variable of the same name).  The loop runs for
`i = 1, 2, ...` while `i < max_radius` and breaks at the first
monotonicity violation (`phi <= half`) or FOV excess (`2 phi > max_fov`). -/
def marchLoop (t : Trig) (cam : Camera) (pp dir : Vec2) (maxRadius maxFov : ℚ) :
    ℕ → ℕ → ℚ → ℚ → ℚ × ℚ
  | 0, _, radius, half => (radius, half)
  | fuel + 1, i, radius, half =>
    if (i : ℚ) < maxRadius then
      let w := cam.imageToWorld (vadd (vsmul (i : ℚ) dir) pp)
      let phi := t.atan (qnorm t w)
      if phi ≤ half ∨ 2 * phi > maxFov then (radius, half)
      else marchLoop t cam pp dir maxRadius maxFov fuel (i + 1) (i : ℚ) phi
    else (radius, half)

/-- The march started as in the source: `i = 1`, inner half-FOV 0, outer
radius `initRadius` (the image diagonal).  The fuel bounds the iteration
count by `max_radius`, exactly like the loop condition. -/
def marchResult (t : Trig) (cam : Camera) (pp dir : Vec2)
    (maxRadius maxFov initRadius : ℚ) : ℚ × ℚ :=
  marchLoop t cam pp dir maxRadius maxFov ((⌈maxRadius⌉ : ℤ).toNat + 1) 1
    initRadius 0

/-- Result of lines 689-725: the principal point, the maximal valid radius
and the half field-of-view used by every later step. -/
structure FovCutoffs where
  principalPoint : Vec2
  maxValidRadius : ℚ
  maxValidFovHalf : ℚ

/-- Lines 689-725.  If the camera kind has a principal-point parameter
pair, march outward along the farthest-`corners`-entry direction to find
the maximal radius.  IMPORTANT: in the source the march updates an *inner*
`double max_valid_fov_half = 0.0;` (line 716) that shadows the outer
variable of line 693, so the half-FOV visible to all subsequent steps is
always `max_fov / 2` — only the radius escapes the block. -/
def fovCutoffs (t : Trig) (o : UndistortCameraOptions) (cam : Camera) :
    FovCutoffs :=
  let maxFov := degToRad t o.maxFov
  let diag := qnorm t ((cam.width : ℚ), (cam.height : ℚ))
  if cam.numPrincipalPointParams = 2 then
    let pp : Vec2 := (cam.cx, cam.cy)
    let fc := farthestCorner t cam pp
    let m := marchResult t cam pp fc.2 fc.1 maxFov diag
    { principalPoint := pp, maxValidRadius := m.1, maxValidFovHalf := maxFov / 2 }
  else
    { principalPoint := (0, 0), maxValidRadius := diag,
      maxValidFovHalf := maxFov / 2 }

/-- The half-FOV value the march of lines 716-724 actually computes (and
which the source then discards because of the shadowed declaration). -/
def discardedMarchHalf (t : Trig) (o : UndistortCameraOptions) (cam : Camera) :
    ℚ :=
  let maxFov := degToRad t o.maxFov
  let diag := qnorm t ((cam.width : ℚ), (cam.height : ℚ))
  let pp : Vec2 := (cam.cx, cam.cy)
  let fc := farthestCorner t cam pp
  (marchResult t cam pp fc.2 fc.1 maxFov diag).2

/-- Lines 728-771: focal length estimated from the field of view.  The
initial diagonal candidate, the two candidates from the `corners` pairs
`(corners[i], corners[i+2])` for `i = 0, 1` (each end clipped by
`SelectPointOnRay`), and the horizontal/vertical candidates from the
principal-point row/column extents, combined with `std::max`. -/
def estimateFocal (t : Trig) (o : UndistortCameraOptions) (cam : Camera)
    (pp : Vec2) (maxValidRadius maxValidFovHalf : ℚ) : ℚ :=
  let maxHorizontalFov := degToRad t o.maxHorizontalFov
  let maxVerticalFov := degToRad t o.maxVerticalFov
  let imageSize : Vec2 := ((cam.width : ℚ), (cam.height : ℚ))
  let diag := qnorm t imageSize
  let f0 := diag / 2 / t.tan maxValidFovHalf
  let fDiag := ([0, 1] : List (Fin 4)).foldl
    (fun acc i =>
      let cornerA := SelectPointOnRay t cam pp (undistCorners cam i)
        maxValidRadius maxValidFovHalf (maxHorizontalFov / 2)
        (maxVerticalFov / 2)
      let cornerB := SelectPointOnRay t cam pp (undistCorners cam (i + 2))
        maxValidRadius maxValidFovHalf (maxHorizontalFov / 2)
        (maxVerticalFov / 2)
      let fov := t.atan (qnorm t (cam.imageToWorld cornerA)) +
        t.atan (qnorm t (cam.imageToWorld cornerB))
      max acc (diag / 2 / t.tan (fov / 2)))
    f0
  let left : Vec2 := (max 0 (pp.1 - maxValidRadius), pp.2)
  let right : Vec2 := (min imageSize.1 (pp.1 + maxValidRadius), pp.2)
  let horizontalFov := t.atan |(cam.imageToWorld left).1| +
    t.atan |(cam.imageToWorld right).1|
  let focalHorizontalFov :=
    imageSize.1 / 2 / t.tan (min maxHorizontalFov horizontalFov / 2)
  let top : Vec2 := (pp.1, max 0 (pp.2 - maxValidRadius))
  let bottom : Vec2 := (pp.1, min imageSize.2 (pp.2 + maxValidRadius))
  let verticalFov := t.atan |(cam.imageToWorld top).2| +
    t.atan |(cam.imageToWorld bottom).2|
  let focalVerticalFov :=
    imageSize.2 / 2 / t.tan (min maxVerticalFov verticalFov / 2)
  max fDiag (max focalHorizontalFov focalVerticalFov)

/-- Largest finite double, the initializer `std::numeric_limits<double>::max()`
of the border extrema accumulators. -/
def doubleMax : ℚ := (2 ^ 53 - 1) * 2 ^ 971

/-- Smallest double, `std::numeric_limits<double>::lowest()`. -/
def doubleLowest : ℚ := -doubleMax

/-- The eight per-axis extrema collected along the image borders
(lines 795-853). -/
structure BorderExtrema where
  leftMinX : ℚ
  leftMaxX : ℚ
  rightMinX : ℚ
  rightMaxX : ℚ
  topMinY : ℚ
  topMaxY : ℚ
  bottomMinY : ℚ
  bottomMaxY : ℚ

/-- Lines 795-853: for every row probe the left and right border points
(clipped by `SelectPointOnRay`), project them through the new pinhole
camera, and accumulate the min/max undistorted x; symmetrically for every
column and the y coordinate. -/
def borderExtrema (t : Trig) (o : UndistortCameraOptions) (cam und : Camera)
    (pp : Vec2) (maxValidRadius maxValidFovHalf : ℚ) : BorderExtrema :=
  let maxHorizontalFov := degToRad t o.maxHorizontalFov
  let maxVerticalFov := degToRad t o.maxVerticalFov
  let xs := (List.range cam.height).foldl
    (fun (acc : ℚ × ℚ × ℚ × ℚ) y =>
      let borderPoint1 := SelectPointOnRay t cam pp ((1 : ℚ) / 2, (y : ℚ) + 1 / 2)
        maxValidRadius maxValidFovHalf (maxHorizontalFov / 2)
        (maxVerticalFov / 2)
      let u1 := und.worldToImagePinhole (cam.imageToWorld borderPoint1)
      let borderPoint2 := SelectPointOnRay t cam pp
        ((cam.width : ℚ) - 1 / 2, (y : ℚ) + 1 / 2)
        maxValidRadius maxValidFovHalf (maxHorizontalFov / 2)
        (maxVerticalFov / 2)
      let u2 := und.worldToImagePinhole (cam.imageToWorld borderPoint2)
      (min acc.1 u1.1, max acc.2.1 u1.1, min acc.2.2.1 u2.1, max acc.2.2.2 u2.1))
    (doubleMax, doubleLowest, doubleMax, doubleLowest)
  let ys := (List.range cam.width).foldl
    (fun (acc : ℚ × ℚ × ℚ × ℚ) x =>
      let borderPoint1 := SelectPointOnRay t cam pp ((x : ℚ) + 1 / 2, (1 : ℚ) / 2)
        maxValidRadius maxValidFovHalf (maxHorizontalFov / 2)
        (maxVerticalFov / 2)
      let u1 := und.worldToImagePinhole (cam.imageToWorld borderPoint1)
      let borderPoint2 := SelectPointOnRay t cam pp
        ((x : ℚ) + 1 / 2, (cam.height : ℚ) - 1 / 2)
        maxValidRadius maxValidFovHalf (maxHorizontalFov / 2)
        (maxVerticalFov / 2)
      let u2 := und.worldToImagePinhole (cam.imageToWorld borderPoint2)
      (min acc.1 u1.2, max acc.2.1 u1.2, min acc.2.2.1 u2.2, max acc.2.2.2 u2.2))
    (doubleMax, doubleLowest, doubleMax, doubleLowest)
  { leftMinX := xs.1, leftMaxX := xs.2.1, rightMinX := xs.2.2.1,
    rightMaxX := xs.2.2.2,
    topMinY := ys.1, topMaxY := ys.2.1, bottomMinY := ys.2.2.1,
    bottomMaxY := ys.2.2.2 }

/-- Clamp `Clip` (util/math.h): clamp a value into `[low, high]` as
`std::max(low, std::min(value, high))`. -/
def clipQ (v low high : ℚ) : ℚ := max low (min v high)

/-- Line 859-861: scale such that the undistorted image contains all pixels
of the distorted image (x axis). -/
def minScaleX (w : ℕ) (cx : ℚ) (e : BorderExtrema) : ℚ :=
  min (cx / (cx - e.leftMinX)) (((w : ℚ) - 1 / 2 - cx) / (e.rightMaxX - cx))

/-- Line 862-864: same for the y axis. -/
def minScaleY (h : ℕ) (cy : ℚ) (e : BorderExtrema) : ℚ :=
  min (cy / (cy - e.topMinY)) (((h : ℚ) - 1 / 2 - cy) / (e.bottomMaxY - cy))

/-- Line 867-869: scale such that there are no blank pixels in the
undistorted image (x axis). -/
def maxScaleX (w : ℕ) (cx : ℚ) (e : BorderExtrema) : ℚ :=
  max (cx / (cx - e.leftMaxX)) (((w : ℚ) - 1 / 2 - cx) / (e.rightMinX - cx))

/-- Line 870-872: same for the y axis. -/
def maxScaleY (h : ℕ) (cy : ℚ) (e : BorderExtrema) : ℚ :=
  max (cy / (cy - e.topMaxY)) (((h : ℚ) - 1 / 2 - cy) / (e.bottomMinY - cy))

/-- Lines 855-882: interpolate the two per-axis factors according to
`blank_pixels`, take the reciprocal, and clip into
`[min_scale, max_scale]`. -/
def scaleFactors (o : UndistortCameraOptions) (w h : ℕ) (cx cy : ℚ)
    (e : BorderExtrema) : ℚ × ℚ :=
  let sx := 1 / (minScaleX w cx e * o.blankPixels +
    maxScaleX w cx e * (1 - o.blankPixels))
  let sy := 1 / (minScaleY h cy e * o.blankPixels +
    maxScaleY h cy e * (1 - o.blankPixels))
  (clipQ sx o.minScale o.maxScale, clipQ sy o.minScale o.maxScale)

/-- Lines 791-897: the scale-to-avoid-blank-pixels step.  Skipped entirely
when the input camera is already of the pinhole family.  Otherwise the new
dimensions are `static_cast<size_t>(std::max(1.0, scale * dim))` and the
principal point is rescaled by the realised dimension ratios. -/
def scaleStep (t : Trig) (o : UndistortCameraOptions) (cam und : Camera)
    (pp : Vec2) (maxValidRadius maxValidFovHalf : ℚ) : Camera :=
  if cam.modelId ≠ simplePinholeModelId ∧ cam.modelId ≠ pinholeModelId then
    let e := borderExtrema t o cam und pp maxValidRadius maxValidFovHalf
    let s := scaleFactors o cam.width cam.height und.cx und.cy e
    let w2 : ℕ := (⌊max 1 (s.1 * (und.width : ℚ))⌋).toNat
    let h2 : ℕ := (⌊max 1 (s.2 * (und.height : ℚ))⌋).toNat
    { und with width := w2, height := h2,
               cx := und.cx * (w2 : ℚ) / (cam.width : ℚ),
               cy := und.cy * (h2 : ℚ) / (cam.height : ℚ) }
  else und

/-- The factor `min(max_image_size / width, max_image_size / height)` of lines 900-907. -/
def capScale (o : UndistortCameraOptions) (c : Camera) : ℚ :=
  min ((o.maxImageSize : ℚ) / (c.width : ℚ)) ((o.maxImageSize : ℚ) / (c.height : ℚ))

/-- Lines 899-911: if a positive maximum image size is configured and the
camera exceeds it, uniformly rescale down (never up). -/
def applySizeCap (o : UndistortCameraOptions) (c : Camera) : Camera :=
  if 0 < o.maxImageSize then
    if capScale o c < 1 then c.rescale (capScale o c) else c
  else c

/-- The default-constructed output camera after
`SetModelId(PinholeCameraModel::model_id)` and copying the input
dimensions (lines 673-676); the four pinhole parameters start at 0. -/
def initialUndistorted (cam : Camera) : Camera :=
  { modelId := pinholeModelId, width := cam.width, height := cam.height,
    fx := 0, fy := 0, cx := 0, cy := 0,
    numFocalParams := 2, numPrincipalPointParams := 2,
    rawImageToWorld := fun _ => (0, 0) }

/-- Lines 728-785: the focal-length choice.  When not estimating from the
field of view, `CHECK_LE(focal_length_idxs.size(), 2)` turns into `none`
for more than two focal parameters; zero focal parameters pass the check
and leave the default (zero) focal lengths untouched. -/
def chooseFocal (t : Trig) (o : UndistortCameraOptions) (cam : Camera)
    (fc : FovCutoffs) : Option (ℚ × ℚ) :=
  if o.estimateFocalLengthFromFov then
    let f := estimateFocal t o cam fc.principalPoint fc.maxValidRadius
      fc.maxValidFovHalf
    some (f, f)
  else if 2 < cam.numFocalParams then none
  else if cam.numFocalParams = 1 then some (cam.focalLength, cam.focalLength)
  else if cam.numFocalParams = 2 then some (cam.fx, cam.fy)
  else some ((initialUndistorted cam).fx, (initialUndistorted cam).fy)

/-- Lines 687-897 (the non-override path up to but excluding the size cap):
valid-radius estimation, focal-length choice, principal-point copy, scale
step. -/
def undistortPipeline (t : Trig) (o : UndistortCameraOptions) (cam : Camera) :
    Option Camera :=
  let fc := fovCutoffs t o cam
  (chooseFocal t o cam fc).map fun f =>
    scaleStep t o cam
      { initialUndistorted cam with fx := f.1, fy := f.2, cx := cam.cx, cy := cam.cy }
      fc.principalPoint fc.maxValidRadius fc.maxValidFovHalf

/-- The synthesizer `UndistortCamera` (lines 659-914).  `none` models a fatal `CHECK`
failure.  The override path (lines 678-686) builds the requested kind
directly and returns before any of the geometric steps, the size cap
included. -/
def UndistortCamera (t : Trig) (o : UndistortCameraOptions) (cam : Camera) :
    Option Camera :=
  if optionsValid o then
    match o.cameraModelOverride with
    | some ov =>
      if ov.paramsValid then
        some { initialUndistorted cam with
                modelId := ov.modelId, fx := ov.fx, fy := ov.fy,
                cx := ov.cx, cy := ov.cy }
      else none
    | none => (undistortPipeline t o cam).map (applySizeCap o)
  else none

/-! ### RectifyStereoCameras (lines 954-1014) -/

/-- 3-vector (`Eigen::Vector3d`). -/
structure Vec3q where
  x : ℚ
  y : ℚ
  z : ℚ
deriving DecidableEq

/-- 3x3 matrix (`Eigen::Matrix3d`), row major fields. -/
structure Mat3 where
  a00 : ℚ
  a01 : ℚ
  a02 : ℚ
  a10 : ℚ
  a11 : ℚ
  a12 : ℚ
  a20 : ℚ
  a21 : ℚ
  a22 : ℚ
deriving DecidableEq

/-- 4x4 matrix (`Eigen::Matrix4d`), row major fields. -/
structure Mat4 where
  q00 : ℚ
  q01 : ℚ
  q02 : ℚ
  q03 : ℚ
  q10 : ℚ
  q11 : ℚ
  q12 : ℚ
  q13 : ℚ
  q20 : ℚ
  q21 : ℚ
  q22 : ℚ
  q23 : ℚ
  q30 : ℚ
  q31 : ℚ
  q32 : ℚ
  q33 : ℚ
deriving DecidableEq

def Mat3.id : Mat3 := ⟨1, 0, 0, 0, 1, 0, 0, 0, 1⟩

def Mat3.mul (A B : Mat3) : Mat3 :=
  ⟨A.a00 * B.a00 + A.a01 * B.a10 + A.a02 * B.a20,
   A.a00 * B.a01 + A.a01 * B.a11 + A.a02 * B.a21,
   A.a00 * B.a02 + A.a01 * B.a12 + A.a02 * B.a22,
   A.a10 * B.a00 + A.a11 * B.a10 + A.a12 * B.a20,
   A.a10 * B.a01 + A.a11 * B.a11 + A.a12 * B.a21,
   A.a10 * B.a02 + A.a11 * B.a12 + A.a12 * B.a22,
   A.a20 * B.a00 + A.a21 * B.a10 + A.a22 * B.a20,
   A.a20 * B.a01 + A.a21 * B.a11 + A.a22 * B.a21,
   A.a20 * B.a02 + A.a21 * B.a12 + A.a22 * B.a22⟩

def Mat3.transpose (A : Mat3) : Mat3 :=
  ⟨A.a00, A.a10, A.a20, A.a01, A.a11, A.a21, A.a02, A.a12, A.a22⟩

def Mat3.mulVec (A : Mat3) (v : Vec3q) : Vec3q :=
  ⟨A.a00 * v.x + A.a01 * v.y + A.a02 * v.z,
   A.a10 * v.x + A.a11 * v.y + A.a12 * v.z,
   A.a20 * v.x + A.a21 * v.y + A.a22 * v.z⟩

def Mat3.smul (s : ℚ) (A : Mat3) : Mat3 :=
  ⟨s * A.a00, s * A.a01, s * A.a02, s * A.a10, s * A.a11, s * A.a12,
   s * A.a20, s * A.a21, s * A.a22⟩

def Mat3.add (A B : Mat3) : Mat3 :=
  ⟨A.a00 + B.a00, A.a01 + B.a01, A.a02 + B.a02,
   A.a10 + B.a10, A.a11 + B.a11, A.a12 + B.a12,
   A.a20 + B.a20, A.a21 + B.a21, A.a22 + B.a22⟩

def dot3 (a b : Vec3q) : ℚ := a.x * b.x + a.y * b.y + a.z * b.z

def cross3 (a b : Vec3q) : Vec3q :=
  ⟨a.y * b.z - a.z * b.y, a.z * b.x - a.x * b.z, a.x * b.y - a.y * b.x⟩

def normSq3 (a : Vec3q) : ℚ := dot3 a a

def norm3 (t : Trig) (a : Vec3q) : ℚ := t.sqrt (normSq3 a)

/-- The cross-product matrix of an axis vector. -/
def crossMat (a : Vec3q) : Mat3 :=
  ⟨0, -a.z, a.y, a.z, 0, -a.x, -a.y, a.x, 0⟩

/-- The outer product `a aᵀ`. -/
def outer3 (a : Vec3q) : Mat3 :=
  ⟨a.x * a.x, a.x * a.y, a.x * a.z,
   a.y * a.x, a.y * a.y, a.y * a.z,
   a.z * a.x, a.z * a.y, a.z * a.z⟩

/-- Eigen's `AngleAxis::toRotationMatrix()` (Rodrigues), entry for entry:
`cos(angle) I + sin(angle) [axis]_x + (1 - cos(angle)) axis axisᵀ`,
parameterised directly by the cosine `c` and sine `s` of the angle. -/
def rodrigues (axis : Vec3q) (c s : ℚ) : Mat3 :=
  (Mat3.smul c Mat3.id).add
    ((Mat3.smul s (crossMat axis)).add (Mat3.smul (1 - c) (outer3 axis)))

/-- Machine epsilon `std::numeric_limits<double>::epsilon()`. -/
def dblEps : ℚ := 1 / 2 ^ 52

/-- Quaternion as `Eigen::Vector4d` `(w, x, y, z)`. -/
structure Vec4q where
  q0 : ℚ
  q1 : ℚ
  q2 : ℚ
  q3 : ℚ
deriving DecidableEq

/-- Lines 964-968: Eigen converts the quaternion `(w, v)` to angle-axis
(`angle = 2 atan2(n, |w|)` with `n = |v|`, axis `v / n` with `n` negated
when `w < 0`), the angle is multiplied by `-0.5`, and the result is turned
back into a rotation matrix.  Since
`cos(-atan2(n, |w|)) = |w| / h` and `sin(-atan2(n, |w|)) = -n / h` for
`h = sqrt(w^2 + n^2)`, the matrix is Rodrigues with that cosine/sine — no
trigonometric evaluation beyond square roots is required.  When `n = 0`
(tested as `n^2 = 0`, equivalent for the real square root) Eigen reports
angle 0 with a default axis, whose rotation matrix is the identity. -/
def halfNegRotationMatrix (t : Trig) (q : Vec4q) : Mat3 :=
  let v : Vec3q := ⟨q.q1, q.q2, q.q3⟩
  let nsq := normSq3 v
  if nsq = 0 then Mat3.id
  else
    let n := t.sqrt nsq
    let h := t.sqrt (nsq + q.q0 * q.q0)
    let nn := if q.q0 < 0 then -n else n
    let axis : Vec3q := ⟨q.q1 / nn, q.q2 / nn, q.q3 / nn⟩
    rodrigues axis (|q.q0| / h) (-(n / h))

/-- Modelled from the spec: `Camera::CalibrationMatrix()` (outside `src/`),
the standard upper-triangular pinhole calibration matrix. -/
def Camera.calibrationMatrix (c : Camera) : Mat3 :=
  ⟨c.fx, 0, c.cx, 0, c.fy, c.cy, 0, 0, 1⟩

/-- Determinant of a 3x3 matrix (cofactor expansion along the first row),
as Eigen's closed-form 3x3 `inverse()` computes it. -/
def det3 (A : Mat3) : ℚ :=
  A.a00 * (A.a11 * A.a22 - A.a12 * A.a21) -
  A.a01 * (A.a10 * A.a22 - A.a12 * A.a20) +
  A.a02 * (A.a10 * A.a21 - A.a11 * A.a20)

/-- Eigen's closed-form 3x3 `inverse()`: adjugate over determinant. -/
def inv3 (A : Mat3) : Mat3 :=
  Mat3.smul (1 / det3 A)
    ⟨A.a11 * A.a22 - A.a12 * A.a21, A.a02 * A.a21 - A.a01 * A.a22,
     A.a01 * A.a12 - A.a02 * A.a11,
     A.a12 * A.a20 - A.a10 * A.a22, A.a00 * A.a22 - A.a02 * A.a20,
     A.a02 * A.a10 - A.a00 * A.a12,
     A.a10 * A.a21 - A.a11 * A.a20, A.a01 * A.a20 - A.a00 * A.a21,
     A.a00 * A.a11 - A.a01 * A.a10⟩

/-- The rectifier `RectifyStereoCameras` (lines 954-1014).  `none` models the fatal
`CHECK`s that both cameras are of the pinhole family.  The rotation is
split in half (inverse half to camera 1, forward half to camera 2), the
correction `R_x` aligns the rotated baseline with the (sign-adjusted)
x-axis — the identity when the rotation axis `t x x_unit` has norm below
machine epsilon (compared via squares, equivalent for the real square
root) — and the result is the homography pair
`H_i = K R_i K_i⁻¹` plus the matrix `Q` of lines 1008-1013: the 4x4
identity with `Q(3,0) = -K(1,2)`, `Q(3,1) = -K(0,2)`, `Q(3,2) = K(0,0)`,
`Q(2,3) = -1/t(0)`, `Q(3,3) = 0` (note `Q(2,2)` keeps its identity value
1, and the principal-point entries are assigned in that transposed
order, faithful to the source). -/
def RectifyStereoCameras (t : Trig) (camera1 camera2 : Camera) (qvec : Vec4q)
    (tvec : Vec3q) : Option (Mat3 × Mat3 × Mat4) :=
  if (camera1.modelId = simplePinholeModelId ∨ camera1.modelId = pinholeModelId) ∧
     (camera2.modelId = simplePinholeModelId ∨ camera2.modelId = pinholeModelId)
  then
    let R2 := halfNegRotationMatrix t qvec
    let R1 := R2.transpose
    let tv := R2.mulVec tvec
    let xUnit : Vec3q := if dot3 tv ⟨1, 0, 0⟩ < 0 then ⟨-1, 0, 0⟩ else ⟨1, 0, 0⟩
    let axis := cross3 tv xUnit
    let Rx : Mat3 :=
      if normSq3 axis < dblEps * dblEps then Mat3.id
      else
        -- angle = acos(|tᵀ x_unit| / (|t| |x_unit|)); Rodrigues needs only
        -- cos(angle) = that quotient and sin(angle) = sqrt(1 - cos²).
        let c := |dot3 tv xUnit| / (norm3 t tv * norm3 t xUnit)
        let nAxis := norm3 t axis
        rodrigues ⟨axis.x / nAxis, axis.y / nAxis, axis.z / nAxis⟩ c
          (t.sqrt (1 - c * c))
    let R1x := Rx.mul R1
    let R2x := Rx.mul R2
    let tx := Rx.mulVec tv
    let kf := min camera1.meanFocalLength camera2.meanFocalLength
    let K : Mat3 := ⟨kf, 0, camera1.cx, 0, kf, (camera1.cy + camera2.cy) / 2,
      0, 0, 1⟩
    let H1 := (K.mul R1x).mul (inv3 camera1.calibrationMatrix)
    let H2 := (K.mul R2x).mul (inv3 camera2.calibrationMatrix)
    let Q : Mat4 :=
      ⟨1, 0, 0, 0,
       0, 1, 0, 0,
       0, 0, 1, (-1) / tx.x,
       -K.a12, -K.a02, K.a00, 0⟩
    some (H1, H2, Q)
  else none

/-! ### Concrete cameras, options and scalar instances used by the
scenario theorems, counterexamples and witnesses below -/

/-- A trig instance that agrees with the real functions at every point the
counterexamples evaluate it: `atan 0 = 0`; `atan 100 ≈ 1.5608` is
represented by `14/9 ≈ 1.5556` (only its position relative to the bound 1
matters); the square roots of the perfect squares 0, 1, 169 and 10000 are
exact. -/
def cexTrig : Trig where
  atan := fun q => if q = 0 then 0 else 14 / 9
  tan := fun _ => 0
  sqrt := fun q =>
    if q = 0 then 0 else if q = 1 then 1 else
    if q = 169 then 13 else if q = 10000 then 100 else 0
  pi := 3

/-- A distorted (non-pinhole-kind) camera whose back-projection always
lands well inside every angular bound: every point on every ray is valid. -/
def camAllValid : Camera where
  modelId := 4
  width := 1
  height := 1
  fx := 1
  fy := 1
  cx := 0
  cy := 0
  numFocalParams := 2
  numPrincipalPointParams := 2
  rawImageToWorld := fun _ => (0, 0)

/-- A distorted camera whose validity along the ray from the origin towards
`(13, 0)` is non-monotone: the back-projected direction is benign for
`x ≤ 1` and for `5 ≤ x ≤ 6`, and far outside the angular bounds
elsewhere.  The spec itself allows arbitrary out-of-domain behaviour of
the camera model. -/
def camNonMono : Camera where
  modelId := 4
  width := 1
  height := 1
  fx := 1
  fy := 1
  cx := 0
  cy := 0
  numFocalParams := 2
  numPrincipalPointParams := 2
  rawImageToWorld := fun p =>
    if p.1 ≤ 1 ∨ (5 ≤ p.1 ∧ p.1 ≤ 6) then (0, 0) else (100, 0)

/-- A trig instance that returns zero everywhere; used where the evaluated
path never consults the transcendental functions or consults them only at
zero (where the real functions are zero too). -/
def tZero : Trig where
  atan := fun _ => 0
  tan := fun _ => 0
  sqrt := fun _ => 0
  pi := 0

/-- A 640x480 radial-kind camera with focal length 500 and principal point
(320, 240) — the shape of the spec's end-to-end scenarios. -/
def cam640 : Camera where
  modelId := 3
  width := 640
  height := 480
  fx := 500
  fy := 500
  cx := 320
  cy := 240
  numFocalParams := 1
  numPrincipalPointParams := 2
  rawImageToWorld := fun _ => (0, 0)

/-- A pinhole camera (model id 1) with the given focal length on both axes
and the given principal point. -/
def pinCam (f cx cy : ℚ) : Camera where
  modelId := pinholeModelId
  width := 640
  height := 480
  fx := f
  fy := f
  cx := cx
  cy := cy
  numFocalParams := 2
  numPrincipalPointParams := 2
  rawImageToWorld := fun _ => (0, 0)

/-- Trig instance for the march scenario: exact square roots of the two
evaluated radicands (`sqrt 2 ≈ 1.414` as `3/2` keeps only its position
in `(1, 2)`; `sqrt 8` as `17/6`), `atan 0 = 0`, and pi as 3 (only the sign
and rough size of `maxFov` matter). -/
def trig5 : Trig where
  atan := fun _ => 0
  tan := fun _ => 0
  sqrt := fun q => if q = 2 then 3 / 2 else if q = 8 then 17 / 6 else 0
  pi := 3

/-- A tiny 2x2 distorted camera with principal point (1, 1) whose
back-projection collapses to the optical axis: the march measures a
half field-of-view of 0 at its first step. -/
def cam5 : Camera where
  modelId := 3
  width := 2
  height := 2
  fx := 1
  fy := 1
  cx := 1
  cy := 1
  numFocalParams := 1
  numPrincipalPointParams := 2
  rawImageToWorld := fun _ => (0, 0)

/-- Options with `max_fov = 100` degrees and no size cap. -/
def o5 : UndistortCameraOptions where
  blankPixels := 0
  minScale := 1 / 5
  maxScale := 5
  maxImageSize := -1
  maxFov := 100
  maxHorizontalFov := 100
  maxVerticalFov := 100
  cameraModelOverride := none
  estimateFocalLengthFromFov := false

/-- Options identical to `o5` except that the maximum image size is 0, the
value the spec declares to mean unbounded. -/
def oZeroCap : UndistortCameraOptions where
  blankPixels := 0
  minScale := 1 / 5
  maxScale := 5
  maxImageSize := 0
  maxFov := 100
  maxHorizontalFov := 100
  maxVerticalFov := 100
  cameraModelOverride := none
  estimateFocalLengthFromFov := false

/-- Border extrema engineered so that the x factors come out as exactly 1
(contains-all-source-pixels) and 3 (no-blank-pixels); same for y. -/
def e9 : BorderExtrema where
  leftMinX := 0
  leftMaxX := 100 / 3
  rightMinX := 133 / 2
  rightMaxX := 199 / 2
  topMinY := 0
  topMaxY := 100 / 3
  bottomMinY := 133 / 2
  bottomMaxY := 199 / 2

/-- Options with blank-pixel fraction 1/2 and clip bounds wide enough not
to interfere. -/
def o9 : UndistortCameraOptions where
  blankPixels := 1 / 2
  minScale := 1 / 100
  maxScale := 100
  maxImageSize := -1
  maxFov := 100
  maxHorizontalFov := 100
  maxVerticalFov := 100
  cameraModelOverride := none
  estimateFocalLengthFromFov := false

/-- The size-cap stage keeps both dimensions at least 1: either the cap
does not trigger, or rounding the rescaled dimensions stays at or above
one pixel. -/
def capOkB (o : UndistortCameraOptions) (c : Camera) : Bool :=
  decide (¬ (0 < o.maxImageSize ∧ capScale o c < 1) ∨
    (1 ≤ round (capScale o c * (c.width : ℚ)) ∧
     1 ≤ round (capScale o c * (c.height : ℚ))))

/-- An override requesting the simple-radial kind (model id 2) with a
parameter string that passes `VerifyParams`. -/
def ovRadial : CameraModelOverride where
  modelId := 2
  fx := 1
  fy := 1
  cx := 0
  cy := 0
  paramsValid := true

/-- Options configuring the non-pinhole override. -/
def oOverride : UndistortCameraOptions where
  blankPixels := 0
  minScale := 1 / 5
  maxScale := 5
  maxImageSize := -1
  maxFov := 100
  maxHorizontalFov := 100
  maxVerticalFov := 100
  cameraModelOverride := some ovRadial
  estimateFocalLengthFromFov := false

/-- The camera produced by the pipeline for the C6 witness input. -/
def und6 : Camera where
  modelId := 1
  width := 640
  height := 480
  fx := 500
  fy := 500
  cx := 320
  cy := 240
  numFocalParams := 2
  numPrincipalPointParams := 2
  rawImageToWorld := fun _ => (0, 0)

/-! ### Invariants of the fixed-iteration bisection -/

theorem selectLoop_bracket (v : ℚ → Bool) :
    ∀ (n : ℕ) (l r : ℚ), l ≤ r →
      l ≤ (selectLoop v n l r).1 ∧
        (selectLoop v n l r).1 ≤ (selectLoop v n l r).2 ∧
        (selectLoop v n l r).2 ≤ r := by
  intro n
  induction n with
  | zero => intro l r h; exact ⟨le_refl l, h, le_refl r⟩
  | succ n ih =>
    intro l r h
    have hm1 : l ≤ (l + r) / 2 := by linarith
    have hm2 : (l + r) / 2 ≤ r := by linarith
    cases hv : v ((l + r) / 2) with
    | true =>
      have := ih ((l + r) / 2) r hm2
      simpa [selectLoop, hv] using ⟨le_trans hm1 this.1, this.2.1, this.2.2⟩
    | false =>
      have := ih l ((l + r) / 2) hm1
      simpa [selectLoop, hv] using ⟨this.1, this.2.1, le_trans this.2.2 hm2⟩

theorem selectLoop_width (v : ℚ → Bool) :
    ∀ (n : ℕ) (l r : ℚ),
      (selectLoop v n l r).2 - (selectLoop v n l r).1 = (r - l) / 2 ^ n := by
  intro n
  induction n with
  | zero => intro l r; simp [selectLoop]
  | succ n ih =>
    intro l r
    cases hv : v ((l + r) / 2) with
    | true =>
      have := ih ((l + r) / 2) r
      simp only [selectLoop, hv, if_pos]
      rw [this]; ring
    | false =>
      have := ih l ((l + r) / 2)
      simp only [selectLoop, hv]
      rw [if_neg (by simp), this]; ring

theorem selectLoop_fst_valid (v : ℚ → Bool) :
    ∀ (n : ℕ) (l r : ℚ),
      (selectLoop v n l r).1 = l ∨ v (selectLoop v n l r).1 = true := by
  intro n
  induction n with
  | zero => intro l r; exact Or.inl rfl
  | succ n ih =>
    intro l r
    cases hv : v ((l + r) / 2) with
    | true =>
      rcases ih ((l + r) / 2) r with h | h
      · right
        simp only [selectLoop, hv, if_true]
        rw [h]; exact hv
      · right; simpa [selectLoop, hv] using h
    | false =>
      rcases ih l ((l + r) / 2) with h | h
      · left; simpa [selectLoop, hv] using h
      · right; simpa [selectLoop, hv] using h

/-- If the validity predicate is downward closed, every valid value below
the initial right end stays below the final right end of the bracket. -/
theorem selectLoop_snd_ub (v : ℚ → Bool)
    (hdc : ∀ a b : ℚ, a ≤ b → v b = true → v a = true) :
    ∀ (n : ℕ) (l r m : ℚ), v m = true → m ≤ r →
      m ≤ (selectLoop v n l r).2 := by
  intro n
  induction n with
  | zero => intro l r m _ h; exact h
  | succ n ih =>
    intro l r m hm h
    cases hv : v ((l + r) / 2) with
    | true =>
      have := ih ((l + r) / 2) r m hm h
      simpa [selectLoop, hv] using this
    | false =>
      have hmle : m ≤ (l + r) / 2 := by
        by_contra hlt
        exact absurd (hdc ((l + r) / 2) m (le_of_not_le hlt) hm) (by simp [hv])
      have := ih l ((l + r) / 2) m hm hmle
      simpa [selectLoop, hv] using this

/-! ### Claim theorems -/

set_option maxRecDepth 100000

set_option maxHeartbeats 2000000

/-! ### Claim C2 -/

/-- C2 (counterexample): `SelectPointOnRay` does NOT return the farthest
point on the segment satisfying the angle bounds.  With a camera that is
valid everywhere, the distance `1` (the full cap) is valid, yet the
returned distance is `1 - 2^(-32) < 1`: the binary search's lower bound
never reaches the right end. -/
theorem selectPointOnRay_not_farthest :
    rayValidAt cexTrig camAllValid (0, 0) (rayDir cexTrig (0, 0) (1, 0))
      1 1 1 1 = true ∧
    rayCap cexTrig (0, 0) (1, 0) 1 = 1 ∧
    selectDistance cexTrig camAllValid (0, 0) (1, 0) 1 1 1 1 < 1 := by
  refine ⟨by with_unfolding_all decide, by with_unfolding_all decide, by with_unfolding_all decide⟩

/-- C2 (amended): `selectValidPoint` returns `origin + dir * l` where `l`
is the lower end of the fixed 32-round binary search over
`[0, min(maxLength, |target - origin|)]`: `l` is 0 (in particular the
point is `origin` when every probed midpoint is invalid) or a probed
distance satisfying the angle tests; `l` never exceeds the cap; and when
validity is monotone (downward closed) along the ray, every valid distance
within the cap exceeds `l` by at most `cap / 2^32`. -/
theorem selectPointOnRay_search_contract (t : Trig) (cam : Camera)
    (origin target : Vec2) (maxLength maxAngle maxH maxV : ℚ)
    (h0 : 0 ≤ rayCap t origin target maxLength) :
    SelectPointOnRay t cam origin target maxLength maxAngle maxH maxV =
      vadd origin
        (vsmul (selectDistance t cam origin target maxLength maxAngle maxH maxV)
          (rayDir t origin target)) ∧
    0 ≤ selectDistance t cam origin target maxLength maxAngle maxH maxV ∧
    selectDistance t cam origin target maxLength maxAngle maxH maxV ≤
      rayCap t origin target maxLength ∧
    (selectDistance t cam origin target maxLength maxAngle maxH maxV = 0 ∨
      rayValidAt t cam origin (rayDir t origin target) maxAngle maxH maxV
        (selectDistance t cam origin target maxLength maxAngle maxH maxV) = true) ∧
    ((∀ a b : ℚ, a ≤ b →
        rayValidAt t cam origin (rayDir t origin target) maxAngle maxH maxV b = true →
        rayValidAt t cam origin (rayDir t origin target) maxAngle maxH maxV a = true) →
      ∀ m : ℚ,
        rayValidAt t cam origin (rayDir t origin target) maxAngle maxH maxV m = true →
        m ≤ rayCap t origin target maxLength →
        m ≤ selectDistance t cam origin target maxLength maxAngle maxH maxV +
          rayCap t origin target maxLength / 2 ^ 32) := by
  have hb := selectLoop_bracket
    (rayValidAt t cam origin (rayDir t origin target) maxAngle maxH maxV)
    32 0 (rayCap t origin target maxLength) h0
  have hw := selectLoop_width
    (rayValidAt t cam origin (rayDir t origin target) maxAngle maxH maxV)
    32 0 (rayCap t origin target maxLength)
  have hv := selectLoop_fst_valid
    (rayValidAt t cam origin (rayDir t origin target) maxAngle maxH maxV)
    32 0 (rayCap t origin target maxLength)
  refine ⟨rfl, hb.1, le_trans hb.2.1 hb.2.2, hv, ?_⟩
  intro hdc m hm hmr
  have hub := selectLoop_snd_ub
    (rayValidAt t cam origin (rayDir t origin target) maxAngle maxH maxV)
    hdc 32 0 (rayCap t origin target maxLength) m hm hmr
  have : (selectLoop
      (rayValidAt t cam origin (rayDir t origin target) maxAngle maxH maxV)
      32 0 (rayCap t origin target maxLength)).2 =
      (selectLoop
        (rayValidAt t cam origin (rayDir t origin target) maxAngle maxH maxV)
        32 0 (rayCap t origin target maxLength)).1 +
      rayCap t origin target maxLength / 2 ^ 32 := by
    have := hw
    rw [sub_zero] at this
    linarith
  rw [this] at hub
  exact hub

/-- C2 (witness): the search contract applied to the all-valid camera with
cap 1. -/
theorem selectPointOnRay_search_contract_witness :
    (0 ≤ rayCap cexTrig (0, 0) (1, 0) 1) ∧
    (SelectPointOnRay cexTrig camAllValid (0, 0) (1, 0) 1 1 1 1 =
      vadd (0, 0)
        (vsmul (selectDistance cexTrig camAllValid (0, 0) (1, 0) 1 1 1 1)
          (rayDir cexTrig (0, 0) (1, 0))) ∧
    0 ≤ selectDistance cexTrig camAllValid (0, 0) (1, 0) 1 1 1 1 ∧
    selectDistance cexTrig camAllValid (0, 0) (1, 0) 1 1 1 1 ≤
      rayCap cexTrig (0, 0) (1, 0) 1 ∧
    (selectDistance cexTrig camAllValid (0, 0) (1, 0) 1 1 1 1 = 0 ∨
      rayValidAt cexTrig camAllValid (0, 0) (rayDir cexTrig (0, 0) (1, 0)) 1 1 1
        (selectDistance cexTrig camAllValid (0, 0) (1, 0) 1 1 1 1) = true) ∧
    ((∀ a b : ℚ, a ≤ b →
        rayValidAt cexTrig camAllValid (0, 0) (rayDir cexTrig (0, 0) (1, 0)) 1 1 1
          b = true →
        rayValidAt cexTrig camAllValid (0, 0) (rayDir cexTrig (0, 0) (1, 0)) 1 1 1
          a = true) →
      ∀ m : ℚ,
        rayValidAt cexTrig camAllValid (0, 0) (rayDir cexTrig (0, 0) (1, 0)) 1 1 1
          m = true →
        m ≤ rayCap cexTrig (0, 0) (1, 0) 1 →
        m ≤ selectDistance cexTrig camAllValid (0, 0) (1, 0) 1 1 1 1 +
          rayCap cexTrig (0, 0) (1, 0) 1 / 2 ^ 32)) :=
  ⟨by with_unfolding_all decide,
    selectPointOnRay_search_contract cexTrig camAllValid (0, 0) (1, 0) 1 1 1 1
      (by with_unfolding_all decide)⟩

/-! ### Claim C10 -/

/-- C10 (counterexample): `selectValidPoint` is NOT monotonic in
`maxLength`.  Along a ray whose validity is non-monotone (valid for
`x ≤ 1` and `5 ≤ x ≤ 6` only), raising `maxLength` from 12 to 13 moves the
first probed midpoint from the valid 6 to the invalid 6.5, and the
returned distance drops from 6 to just below 1. -/
theorem selectDistance_not_monotone :
    selectDistance cexTrig camNonMono (0, 0) (13, 0) 13 1 1 1 <
      selectDistance cexTrig camNonMono (0, 0) (13, 0) 12 1 1 1 := by
  with_unfolding_all decide

/-- C10 (amended): when validity is monotone (downward closed) along the
ray, increasing `maxLength` decreases the returned distance by at most
`min(maxLength2, |target - origin|) / 2^32`; and for every input the
returned point is `origin + dir * l` with
`0 ≤ l ≤ min(maxLength, |target - origin|)`, i.e. on the segment towards
`target` clipped to `maxLength`. -/
theorem selectDistance_monotone_up_to_resolution (t : Trig) (cam : Camera)
    (origin target : Vec2) (maxL maxL2 maxAngle maxH maxV : ℚ)
    (h0 : 0 ≤ rayCap t origin target maxL) (h12 : maxL ≤ maxL2)
    (hdc : ∀ a b : ℚ, a ≤ b →
      rayValidAt t cam origin (rayDir t origin target) maxAngle maxH maxV b = true →
      rayValidAt t cam origin (rayDir t origin target) maxAngle maxH maxV a = true) :
    selectDistance t cam origin target maxL maxAngle maxH maxV ≤
      selectDistance t cam origin target maxL2 maxAngle maxH maxV +
        rayCap t origin target maxL2 / 2 ^ 32 ∧
    0 ≤ selectDistance t cam origin target maxL maxAngle maxH maxV ∧
    selectDistance t cam origin target maxL maxAngle maxH maxV ≤
      rayCap t origin target maxL ∧
    SelectPointOnRay t cam origin target maxL maxAngle maxH maxV =
      vadd origin
        (vsmul (selectDistance t cam origin target maxL maxAngle maxH maxV)
          (rayDir t origin target)) := by
  have hcap : rayCap t origin target maxL ≤ rayCap t origin target maxL2 :=
    min_le_min h12 le_rfl
  have h0a : 0 ≤ rayCap t origin target maxL2 := le_trans h0 hcap
  have hb1 := selectLoop_bracket
    (rayValidAt t cam origin (rayDir t origin target) maxAngle maxH maxV)
    32 0 (rayCap t origin target maxL) h0
  have hb2 := selectLoop_bracket
    (rayValidAt t cam origin (rayDir t origin target) maxAngle maxH maxV)
    32 0 (rayCap t origin target maxL2) h0a
  have hw2 := selectLoop_width
    (rayValidAt t cam origin (rayDir t origin target) maxAngle maxH maxV)
    32 0 (rayCap t origin target maxL2)
  have hsnd : (selectLoop
      (rayValidAt t cam origin (rayDir t origin target) maxAngle maxH maxV)
      32 0 (rayCap t origin target maxL2)).2 =
      selectDistance t cam origin target maxL2 maxAngle maxH maxV +
        rayCap t origin target maxL2 / 2 ^ 32 := by
    have := hw2
    rw [sub_zero] at this
    unfold selectDistance
    linarith
  refine ⟨?_, hb1.1, le_trans hb1.2.1 hb1.2.2, rfl⟩
  rcases selectLoop_fst_valid
      (rayValidAt t cam origin (rayDir t origin target) maxAngle maxH maxV)
      32 0 (rayCap t origin target maxL) with hz | hval
  · have hl2 : 0 ≤ selectDistance t cam origin target maxL2 maxAngle maxH maxV :=
      hb2.1
    have hc2 : 0 ≤ rayCap t origin target maxL2 / 2 ^ 32 := by positivity
    unfold selectDistance
    rw [hz]
    unfold selectDistance at hl2
    linarith
  · have hle : selectDistance t cam origin target maxL maxAngle maxH maxV ≤
        rayCap t origin target maxL2 :=
      le_trans (le_trans hb1.2.1 hb1.2.2) hcap
    have hub := selectLoop_snd_ub
      (rayValidAt t cam origin (rayDir t origin target) maxAngle maxH maxV)
      hdc 32 0 (rayCap t origin target maxL2)
      (selectDistance t cam origin target maxL maxAngle maxH maxV) hval hle
    rw [hsnd] at hub
    exact hub

/-- C10 (witness): the near-monotonicity bound applied to the all-valid
camera with caps 1 and 2. -/
theorem selectDistance_monotone_up_to_resolution_witness :
    (0 ≤ rayCap cexTrig (0, 0) (1, 0) 1) ∧
    ((1 : ℚ) ≤ 2) ∧
    (∀ a b : ℚ, a ≤ b →
      rayValidAt cexTrig camAllValid (0, 0) (rayDir cexTrig (0, 0) (1, 0)) 1 1 1
        b = true →
      rayValidAt cexTrig camAllValid (0, 0) (rayDir cexTrig (0, 0) (1, 0)) 1 1 1
        a = true) ∧
    (selectDistance cexTrig camAllValid (0, 0) (1, 0) 1 1 1 1 ≤
      selectDistance cexTrig camAllValid (0, 0) (1, 0) 2 1 1 1 +
        rayCap cexTrig (0, 0) (1, 0) 2 / 2 ^ 32 ∧
    0 ≤ selectDistance cexTrig camAllValid (0, 0) (1, 0) 1 1 1 1 ∧
    selectDistance cexTrig camAllValid (0, 0) (1, 0) 1 1 1 1 ≤
      rayCap cexTrig (0, 0) (1, 0) 1 ∧
    SelectPointOnRay cexTrig camAllValid (0, 0) (1, 0) 1 1 1 1 =
      vadd (0, 0)
        (vsmul (selectDistance cexTrig camAllValid (0, 0) (1, 0) 1 1 1 1)
          (rayDir cexTrig (0, 0) (1, 0)))) :=
  ⟨by with_unfolding_all decide, by norm_num, fun _ _ _ _ => by with_unfolding_all rfl,
    selectDistance_monotone_up_to_resolution cexTrig camAllValid (0, 0) (1, 0)
      1 2 1 1 1 (by with_unfolding_all decide) (by norm_num) (fun _ _ _ _ => by with_unfolding_all rfl)⟩

/-! ### Claims C1, C4, C5 -/

/-- C1 (code bug): the corner-pair focal candidates do not use pairs of
opposite image corners.  For the 640x480 camera the third entry of the
`corners` array of lines 697-700 is the transposed point `(480, 640)` — the
second member of the pair probed together with `(0, 0)` — and no entry of
the array equals the true opposite corner `(640, 480)`. -/
theorem undistCorners_transposed_corner :
    undistCorners cam640 2 = ((480 : ℚ), (640 : ℚ)) ∧
    ((480 : ℚ), (640 : ℚ)) ≠ (((640 : ℚ), (480 : ℚ)) : Vec2) ∧
    ∀ i : Fin 4, undistCorners cam640 i ≠ (((640 : ℚ), (480 : ℚ)) : Vec2) := by
  refine ⟨by with_unfolding_all decide, by with_unfolding_all decide,
    by with_unfolding_all decide⟩

/-- C4 (code bug): in the matrix `Q` of lines 1008-1013, the entry added to
`x` is `Q(3,0) = -K(1,2) = -240` — the negated VERTICAL principal-point
offset instead of the horizontal one `-K(0,2) = -320` — and `Q(2,2)` keeps
its identity value 1, so the disparity also leaks into the third output
component (`Z = d + K(0,0)`), contradicting `-1/t_x` being the only entry
coupling disparity to depth. -/
theorem rectify_Q_offsets_swapped :
    (RectifyStereoCameras tZero (pinCam 500 320 240) (pinCam 500 320 240)
        ⟨1, 0, 0, 0⟩ ⟨1 / 10, 0, 0⟩).map
      (fun r => (r.2.2.q30, r.2.2.q31, r.2.2.q22, r.2.2.q23)) =
      some (-240, -320, 1, -10) ∧
    ((-240 : ℚ) ≠ -320) := by
  refine ⟨by with_unfolding_all decide, by with_unfolding_all decide⟩

/-- C5 (code bug): the half field-of-view computed by the march of
lines 716-724 is discarded — line 716 declares an inner
`double max_valid_fov_half = 0.0;` shadowing the outer variable of
line 693 — so every subsequent step uses `max_fov / 2` regardless.  Here
the march determines a half-FOV of 0, yet the cutoff handed to the focal
estimation and border probing is `degToRad(100)/2 = 5/6` (with pi = 3). -/
theorem march_half_fov_shadowed :
    discardedMarchHalf trig5 o5 cam5 = 0 ∧
    (fovCutoffs trig5 o5 cam5).maxValidFovHalf = 5 / 6 ∧
    ((0 : ℚ) ≠ 5 / 6) := by
  refine ⟨by with_unfolding_all decide, by with_unfolding_all decide,
    by with_unfolding_all decide⟩

/-! ### Claim C3 -/

/-- C3: two identical pinhole cameras with focal length 500 (any shared
principal point), zero relative rotation and baseline translation
`(0.1, 0, 0)`: the quaternion has zero vector part so the halved rotation
is the identity; the rotated baseline `(0.1, 0, 0)` points along the
positive x-axis, its cross product with the x unit vector is zero, and the
near-zero-norm rotation axis triggers the identity correction rotation.
Both homographies are `K K⁻¹ = identity` and `Q(2,3) = -1/0.1 = -10`. -/
theorem rectify_identical_pinhole_identity (t : Trig) (cx cy : ℚ) :
    RectifyStereoCameras t (pinCam 500 cx cy) (pinCam 500 cx cy)
      ⟨1, 0, 0, 0⟩ ⟨1 / 10, 0, 0⟩ =
    some (Mat3.id, Mat3.id,
      ⟨1, 0, 0, 0, 0, 1, 0, 0, 0, 0, 1, -10, -cy, -cx, 500, 0⟩) := by
  norm_num [RectifyStereoCameras, halfNegRotationMatrix, pinCam,
    pinholeModelId, simplePinholeModelId, Camera.meanFocalLength,
    Camera.calibrationMatrix, Mat3.mul, Mat3.transpose, Mat3.mulVec, Mat3.id,
    Mat3.add, Mat3.smul, rodrigues, crossMat, outer3, cross3, dot3, normSq3,
    norm3, inv3, det3, dblEps, Mat3.mk.injEq, Mat4.mk.injEq]
  constructor <;> ring

/-! ### Helper lemmas about the pipeline stages -/

theorem scaleStep_skip_pinhole (t : Trig) (o : UndistortCameraOptions)
    (cam und : Camera) (pp : Vec2) (r h : ℚ)
    (hm : cam.modelId = simplePinholeModelId ∨ cam.modelId = pinholeModelId) :
    scaleStep t o cam und pp r h = und := by
  unfold scaleStep
  rcases hm with hm | hm
  · exact if_neg fun hc => hc.1 hm
  · exact if_neg fun hc => hc.2 hm

theorem applySizeCap_skip (o : UndistortCameraOptions) (c : Camera)
    (h : o.maxImageSize < 0 ∨ 1 ≤ capScale o c) : applySizeCap o c = c := by
  unfold applySizeCap
  rcases h with h | h
  · exact if_neg (by omega)
  · by_cases h0 : 0 < o.maxImageSize
    · rw [if_pos h0, if_neg (not_lt.mpr h)]
    · exact if_neg h0

theorem scaleStep_modelId (t : Trig) (o : UndistortCameraOptions)
    (cam und : Camera) (pp : Vec2) (r h : ℚ) :
    (scaleStep t o cam und pp r h).modelId = und.modelId := by
  unfold scaleStep; split <;> rfl

theorem one_le_floor_max_one_toNat (x : ℚ) : 1 ≤ (⌊max 1 x⌋).toNat := by
  have h1 : (1 : ℤ) ≤ ⌊max 1 x⌋ :=
    Int.le_floor.mpr (by exact_mod_cast le_max_left (1 : ℚ) x)
  omega

theorem scaleStep_width_ge (t : Trig) (o : UndistortCameraOptions)
    (cam und : Camera) (pp : Vec2) (r h : ℚ) (hw : 1 ≤ und.width) :
    1 ≤ (scaleStep t o cam und pp r h).width := by
  unfold scaleStep
  split
  · exact one_le_floor_max_one_toNat _
  · exact hw

theorem scaleStep_height_ge (t : Trig) (o : UndistortCameraOptions)
    (cam und : Camera) (pp : Vec2) (r h : ℚ) (hh : 1 ≤ und.height) :
    1 ≤ (scaleStep t o cam und pp r h).height := by
  unfold scaleStep
  split
  · exact one_le_floor_max_one_toNat _
  · exact hh

/-! ### Claim C7 -/

/-- C7 (counterexample): a configuration whose maximum output dimension is
0 is NOT accepted: `CHECK_NE(options.max_image_size, 0)` (line 665) makes
it a fatal configuration error before any computation happens. -/
theorem undistort_zero_max_image_size_fatal :
    UndistortCamera tZero oZeroCap cam640 = none := by
  with_unfolding_all rfl

/-- C7 (amended): a NEGATIVE maximum output dimension is the value treated
as unbounded: it passes every entry check (given the other bounds hold)
and the size-cap stage leaves the camera untouched; the value 0 itself is
rejected by a fatal check. -/
theorem undistort_negative_max_image_size_unbounded
    (o : UndistortCameraOptions) (c : Camera) (hneg : o.maxImageSize < 0)
    (hb : 0 ≤ o.blankPixels ∧ o.blankPixels ≤ 1 ∧ 0 < o.minScale ∧
      o.minScale ≤ o.maxScale ∧ o.maxFov < 180 ∧ 0 < o.maxFov ∧
      o.maxVerticalFov ≤ 180 ∧ 0 < o.maxVerticalFov ∧
      o.maxHorizontalFov ≤ 180 ∧ 0 < o.maxHorizontalFov) :
    optionsValid o = true ∧ applySizeCap o c = c := by
  obtain ⟨h1, h2, h3, h4, h5, h6, h7, h8, h9, h10⟩ := hb
  refine ⟨?_, applySizeCap_skip o c (Or.inl hneg)⟩
  simp [optionsValid, h1, h2, h3, h4, h5, h6, h7, h8, h9, h10, ne_of_lt hneg]

/-- C7 (witness): options with maximum image size -1 (the header default)
pass the checks and the size cap is skipped. -/
theorem undistort_negative_max_image_size_unbounded_witness :
    (o5.maxImageSize < 0) ∧
    (0 ≤ o5.blankPixels ∧ o5.blankPixels ≤ 1 ∧ 0 < o5.minScale ∧
      o5.minScale ≤ o5.maxScale ∧ o5.maxFov < 180 ∧ 0 < o5.maxFov ∧
      o5.maxVerticalFov ≤ 180 ∧ 0 < o5.maxVerticalFov ∧
      o5.maxHorizontalFov ≤ 180 ∧ 0 < o5.maxHorizontalFov) ∧
    (optionsValid o5 = true ∧ applySizeCap o5 cam640 = cam640) :=
  ⟨by with_unfolding_all decide, by with_unfolding_all decide,
    undistort_negative_max_image_size_unbounded o5 cam640
      (by with_unfolding_all decide) (by with_unfolding_all decide)⟩

/-! ### Claim C8 -/

/-- C8: for a pinhole-family input camera with `estimateFocalLengthFromFov`
unset and no applicable size cap, the synthesized camera keeps the
focal lengths, principal point, width and height of the input: the
scale-to-avoid-blank-pixels step is skipped for pinhole-family kinds. -/
theorem undistort_pinhole_passthrough (t : Trig) (o : UndistortCameraOptions)
    (cam : Camera)
    (hval : optionsValid o = true)
    (hov : o.cameraModelOverride = none)
    (hest : o.estimateFocalLengthFromFov = false)
    (hmodel : (cam.modelId = simplePinholeModelId ∧ cam.numFocalParams = 1 ∧
        cam.fx = cam.fy) ∨
      (cam.modelId = pinholeModelId ∧ cam.numFocalParams = 2))
    (hcap : o.maxImageSize < 0 ∨
      1 ≤ min ((o.maxImageSize : ℚ) / (cam.width : ℚ))
        ((o.maxImageSize : ℚ) / (cam.height : ℚ))) :
    (UndistortCamera t o cam).map
        (fun c => (c.fx, c.fy, c.cx, c.cy, c.width, c.height)) =
      some (cam.fx, cam.fy, cam.cx, cam.cy, cam.width, cam.height) := by
  have hmodel2 : cam.modelId = simplePinholeModelId ∨ cam.modelId = pinholeModelId := by
    rcases hmodel with ⟨hm, _⟩ | ⟨hm, _⟩
    · exact Or.inl hm
    · exact Or.inr hm
  have hfocal : chooseFocal t o cam (fovCutoffs t o cam) = some (cam.fx, cam.fy) := by
    unfold chooseFocal
    rw [hest]
    rcases hmodel with ⟨_, hn, hxy⟩ | ⟨_, hn⟩
    · simp [hn, Camera.focalLength, hxy]
    · simp [hn]
  have hpipe : undistortPipeline t o cam = some
      { initialUndistorted cam with
        fx := cam.fx, fy := cam.fy, cx := cam.cx, cy := cam.cy } := by
    simp only [undistortPipeline]
    rw [hfocal, Option.map_some']
    rw [scaleStep_skip_pinhole t o cam _ _ _ _ hmodel2]
  have hU : UndistortCamera t o cam =
      (undistortPipeline t o cam).map (applySizeCap o) := by
    unfold UndistortCamera
    rw [hov, if_pos hval]
  have hcap2 : o.maxImageSize < 0 ∨ 1 ≤ capScale o
      { initialUndistorted cam with
        fx := cam.fx, fy := cam.fy, cx := cam.cx, cy := cam.cy } := hcap
  rw [hU, hpipe, Option.map_some', applySizeCap_skip o _ hcap2,
    Option.map_some']
  rfl

/-- C8 (witness): a concrete 2x2 pinhole camera passes through unchanged. -/
theorem undistort_pinhole_passthrough_witness :
    (optionsValid o5 = true) ∧
    (o5.cameraModelOverride = none) ∧
    (o5.estimateFocalLengthFromFov = false) ∧
    ((pinCam 500 320 240).modelId = pinholeModelId ∧
      (pinCam 500 320 240).numFocalParams = 2) ∧
    (o5.maxImageSize < 0) ∧
    ((UndistortCamera tZero o5 (pinCam 500 320 240)).map
        (fun c => (c.fx, c.fy, c.cx, c.cy, c.width, c.height)) =
      some ((pinCam 500 320 240).fx, (pinCam 500 320 240).fy,
        (pinCam 500 320 240).cx, (pinCam 500 320 240).cy,
        (pinCam 500 320 240).width, (pinCam 500 320 240).height)) :=
  ⟨by with_unfolding_all decide, by with_unfolding_all decide,
    by with_unfolding_all decide, by with_unfolding_all decide,
    by with_unfolding_all decide,
    undistort_pinhole_passthrough tZero o5 (pinCam 500 320 240)
      (by with_unfolding_all decide) (by with_unfolding_all decide)
      (by with_unfolding_all decide)
      (Or.inr (by with_unfolding_all decide))
      (Or.inl (by with_unfolding_all decide))⟩

/-! ### Claim C9 -/

/-- C9 (counterexample): the applied per-axis scale is NOT the linear
interpolation of the two border-derived factors.  With factors 1 and 3 and
blank fraction 1/2, the code applies `1 / (1/2 * 1 + 1/2 * 3) = 1/2`,
whereas the linear interpolation of the factors is 2 and the linear
interpolation of their reciprocals (the two candidate output scales)
is 2/3. -/
theorem scale_interpolation_not_linear :
    minScaleX 100 50 e9 = 1 ∧ maxScaleX 100 50 e9 = 3 ∧
    (scaleFactors o9 100 100 50 50 e9).1 = 1 / 2 ∧
    ((1 : ℚ) / 2 ≠
      minScaleX 100 50 e9 * o9.blankPixels +
        maxScaleX 100 50 e9 * (1 - o9.blankPixels)) ∧
    ((1 : ℚ) / 2 ≠
      (1 / minScaleX 100 50 e9) * o9.blankPixels +
        (1 / maxScaleX 100 50 e9) * (1 - o9.blankPixels)) := by
  refine ⟨by with_unfolding_all decide, by with_unfolding_all decide,
    by with_unfolding_all decide, by with_unfolding_all decide,
    by with_unfolding_all decide⟩

/-- C9 (amended): the applied per-axis scale is the clip into
`[minScale, maxScale]` of the RECIPROCAL of the blank-pixel-weighted linear
interpolation of the two border-derived factors, and after clipping it
always lies between `minScale` and `maxScale` on both axes. -/
theorem scale_reciprocal_interpolation_bounds (o : UndistortCameraOptions)
    (w h : ℕ) (cx cy : ℚ) (e : BorderExtrema)
    (hms : o.minScale ≤ o.maxScale) :
    scaleFactors o w h cx cy e =
      (clipQ (1 / (minScaleX w cx e * o.blankPixels +
          maxScaleX w cx e * (1 - o.blankPixels))) o.minScale o.maxScale,
       clipQ (1 / (minScaleY h cy e * o.blankPixels +
          maxScaleY h cy e * (1 - o.blankPixels))) o.minScale o.maxScale) ∧
    o.minScale ≤ (scaleFactors o w h cx cy e).1 ∧
    (scaleFactors o w h cx cy e).1 ≤ o.maxScale ∧
    o.minScale ≤ (scaleFactors o w h cx cy e).2 ∧
    (scaleFactors o w h cx cy e).2 ≤ o.maxScale := by
  refine ⟨rfl, ?_, ?_, ?_, ?_⟩ <;>
    simp only [scaleFactors, clipQ] <;>
    first
      | exact le_max_left _ _
      | exact max_le hms (min_le_right _ _)

/-- C9 (witness): the characterization applied to the concrete extrema. -/
theorem scale_reciprocal_interpolation_bounds_witness :
    (o9.minScale ≤ o9.maxScale) ∧
    (scaleFactors o9 100 100 50 50 e9 =
      (clipQ (1 / (minScaleX 100 50 e9 * o9.blankPixels +
          maxScaleX 100 50 e9 * (1 - o9.blankPixels))) o9.minScale o9.maxScale,
       clipQ (1 / (minScaleY 100 50 e9 * o9.blankPixels +
          maxScaleY 100 50 e9 * (1 - o9.blankPixels))) o9.minScale o9.maxScale) ∧
    o9.minScale ≤ (scaleFactors o9 100 100 50 50 e9).1 ∧
    (scaleFactors o9 100 100 50 50 e9).1 ≤ o9.maxScale ∧
    o9.minScale ≤ (scaleFactors o9 100 100 50 50 e9).2 ∧
    (scaleFactors o9 100 100 50 50 e9).2 ≤ o9.maxScale) :=
  ⟨by with_unfolding_all decide,
    scale_reciprocal_interpolation_bounds o9 100 100 50 50 e9
      (by with_unfolding_all decide)⟩

/-! ### Claim C6 -/

/-- C6 (counterexample): with an override camera kind configured, the
returned camera is exactly the requested kind — here the simple-radial
kind, model id 2 — which is not of the pinhole family, refuting the
output guarantee on the override path the claim explicitly includes. -/
theorem undistort_override_nonpinhole_kind :
    (UndistortCamera tZero oOverride cam640).map Camera.modelId = some 2 ∧
    (2 : ℕ) ≠ simplePinholeModelId ∧ (2 : ℕ) ≠ pinholeModelId := by
  refine ⟨by with_unfolding_all rfl, by with_unfolding_all decide,
    by with_unfolding_all decide⟩

/-- C6 (amended): without an override kind, for an input camera with
positive dimensions, the synthesized camera is of pinhole kind and has
width and height at least 1, provided any triggered size-cap rescale
rounds both dimensions to at least one pixel (the uniform rescale rounds
to the nearest integer, so a tiny cap on a very elongated image can
round the short dimension to zero). -/
theorem undistort_model_and_min_dims (t : Trig) (o : UndistortCameraOptions)
    (cam c c0 : Camera)
    (hov : o.cameraModelOverride = none)
    (hw : 1 ≤ cam.width) (hh : 1 ≤ cam.height)
    (hpre : undistortPipeline t o cam = some c0)
    (hcap : capOkB o c0 = true)
    (hres : UndistortCamera t o cam = some c) :
    c.modelId = pinholeModelId ∧ 1 ≤ c.width ∧ 1 ≤ c.height := by
  by_cases hval : optionsValid o = true
  case neg =>
    exfalso
    unfold UndistortCamera at hres
    rw [if_neg hval] at hres
    exact Option.noConfusion hres
  unfold UndistortCamera at hres
  rw [hov, if_pos hval] at hres
  have hres2 : (undistortPipeline t o cam).map (applySizeCap o) = some c := hres
  rw [hpre, Option.map_some'] at hres2
  have hc : c = applySizeCap o c0 := (Option.some.inj hres2).symm
  obtain ⟨f, hf, hc0⟩ := Option.map_eq_some'.mp
    (by simpa only [undistortPipeline] using hpre)
  have hm0 : c0.modelId = pinholeModelId := by
    rw [← hc0, scaleStep_modelId]
    rfl
  have hw0 : 1 ≤ c0.width := by
    rw [← hc0]
    exact scaleStep_width_ge _ _ _ _ _ _ _ hw
  have hh0 : 1 ≤ c0.height := by
    rw [← hc0]
    exact scaleStep_height_ge _ _ _ _ _ _ _ hh
  rw [hc]
  unfold applySizeCap
  split_ifs with hpos hlt
  · simp only [capOkB, decide_eq_true_eq] at hcap
    rcases hcap with habs | ⟨hrw, hrh⟩
    · exact absurd ⟨hpos, hlt⟩ habs
    · refine ⟨hm0, ?_, ?_⟩
      · show 1 ≤ (round (capScale o c0 * (c0.width : ℚ))).toNat
        omega
      · show 1 ≤ (round (capScale o c0 * (c0.height : ℚ))).toNat
        omega
  · exact ⟨hm0, hw0, hh0⟩
  · exact ⟨hm0, hw0, hh0⟩

/-- C6 (witness): the no-override guarantee applied to a concrete pinhole
camera with the default (negative, i.e. unbounded) size cap. -/
theorem undistort_model_and_min_dims_witness :
    (o5.cameraModelOverride = none) ∧
    (1 ≤ (pinCam 500 320 240).width) ∧
    (1 ≤ (pinCam 500 320 240).height) ∧
    (undistortPipeline tZero o5 (pinCam 500 320 240) = some und6) ∧
    (capOkB o5 und6 = true) ∧
    (UndistortCamera tZero o5 (pinCam 500 320 240) = some und6) ∧
    (und6.modelId = pinholeModelId ∧ 1 ≤ und6.width ∧ 1 ≤ und6.height) :=
  ⟨rfl, by decide, by decide, by with_unfolding_all rfl,
    by with_unfolding_all decide, by with_unfolding_all rfl,
    undistort_model_and_min_dims tZero o5 (pinCam 500 320 240) und6 und6
      rfl (by decide) (by decide) (by with_unfolding_all rfl)
      (by with_unfolding_all decide) (by with_unfolding_all rfl)⟩

end Undist
